import Mathlib

/-
  Verification of the record-store core of the fakestore-nodejs repository.

  The embedded code is src/src/managers/CartManager.js, which contains both
  the CartManager class (carts, line-item merge) and the ProductManager class
  (products, validation, duplicate-code check, CRUD).  JavaScript numbers are
  modelled as integers (every number the store manipulates is an integer id,
  quantity, price or stock); JavaScript objects are association lists from
  field names to values; thrown errors become an Except error value.
-/

/-- A JavaScript value as it occurs in the stored records: the absent value
produced by reading a missing key, null, booleans, numbers (modelled as
integers) and strings.  The only array the stores touch is the thumbnails
payload, which no operation ever inspects, so array values are represented by
any other opaque value (arrays are truthy, like non-empty strings). -/
inductive JValue where
  | vUndefined : JValue
  | vNull : JValue
  | vBool (b : Bool) : JValue
  | vNum (n : Int) : JValue
  | vStr (s : String) : JValue
deriving DecidableEq

/-- A JavaScript object: an association list of fields.  JS object keys are
unique, so lookup takes the first occurrence. -/
abbrev Obj := List (String × JValue)

/-- Key lookup on an object, none when the key is absent. -/
def jsGetOpt : Obj → String → Option JValue
  | [], _ => none
  | (k, v) :: rest, key => if k = key then some v else jsGetOpt rest key

/-- Field read as JS performs it: a missing key reads as undefined. -/
def jsGet (o : Obj) (key : String) : JValue :=
  (jsGetOpt o key).getD .vUndefined

/-- JS truthiness: undefined, null, false, 0 and the empty string are falsy;
every other value (arrays included) is truthy. -/
def jvTruthy : JValue → Bool
  | .vUndefined => false
  | .vNull => false
  | .vBool b => b
  | .vNum n => decide (n ≠ 0)
  | .vStr s => decide (s ≠ "")

/-- The JS object spread of a patch over an original object, as in
updateProduct: every original key keeps its position and takes the patch
value when the patch has that key; patch keys absent from the original are
appended in patch order. -/
def spreadMerge (orig patch : Obj) : Obj :=
  (orig.map (fun kv =>
    match jsGetOpt patch kv.1 with
    | some v => (kv.1, v)
    | none => kv))
  ++ patch.filter (fun kv => (jsGetOpt orig kv.1).isNone)

/-- Array.prototype.findIndex, with none standing for the JS result -1. -/
def jsFindIndex {α : Type} (p : α → Bool) : List α → Option Nat
  | [] => none
  | x :: rest => if p x then some 0 else (jsFindIndex p rest).map (· + 1)

/-- The error taxonomy of the store layer.  The JS code throws Error objects
carrying a message; the spec names the three conditions ValidationError,
DuplicateKeyError and NotFoundError. -/
inductive StoreError where
  | validationError (missing : List String) : StoreError
  | duplicateKeyError : StoreError
  | notFoundError : StoreError
deriving DecidableEq

/-- The message of the thrown Error (the not-found messages in the JS source
also interpolate the offending id, elided here). -/
def errorMessage : StoreError → String
  | .validationError missing => "Missing fields: " ++ String.intercalate ", " missing
  | .duplicateKeyError => "Product with the same code already exists."
  | .notFoundError => "not found."

/-- Whether a store call succeeded. -/
def exceptIsOk {ε α : Type} : Except ε α → Bool
  | .ok _ => true
  | .error _ => false

/-- A cart line item: a product id together with a quantity. -/
structure LineItem where
  product : Int
  quantity : Int
deriving DecidableEq

/-- A cart record.  Modelled from the spec: models/Cart.js is not under src/;
per the spec's cart record shape its constructor assigns an id and a
line-item sequence. -/
structure Cart where
  id : Int
  products : List LineItem
deriving DecidableEq

/-- The CartManager state: the in-memory cart list and the next-id counter. -/
structure CartState where
  carts : List Cart
  nextId : Int
deriving DecidableEq

/-- A freshly constructed CartManager after a failed load: an empty cart list
and nextId 1, exactly the constructor fields. -/
def cartInit : CartState := ⟨[], 1⟩

/-- CartManager.createCart: build a cart with the current nextId and an empty
product list, push it, persist, increment nextId, return the cart. -/
def createCart (s : CartState) : CartState × Cart :=
  let cart : Cart := ⟨s.nextId, []⟩
  (⟨s.carts ++ [cart], s.nextId + 1⟩, cart)

/-- CartManager.getCartById: Array.prototype.find over the cart list; the
result is none (JS undefined) when no cart has the id.  Note that the
method's own JSDoc asserts it throws when the cart is not found, but the
body performs no such check. -/
def getCartById (s : CartState) (cartId : Int) : Option Cart :=
  s.carts.find? (fun c => c.id == cartId)

/-- The line-item merge loop of CartManager.evaluateProduct: find the first
line item for the product and add the quantity to it, else push a new line
item at the end. -/
def addOrMerge : List LineItem → Int → Int → List LineItem
  | [], pid, q => [⟨pid, q⟩]
  | li :: rest, pid, q =>
    if li.product == pid then ⟨li.product, li.quantity + q⟩ :: rest
    else li :: addOrMerge rest pid q

/-- CartManager.evaluateProduct on one cart (parseInt is the identity here
because product ids are modelled as integers; the JS mutation of the found
line item is the in-place update performed by addOrMerge). -/
def evaluateProduct (cart : Cart) (productId quantity : Int) : Cart :=
  ⟨cart.id, addOrMerge cart.products productId quantity⟩

/-- CartManager.addProductToCart: look up the cart (the JS code aliases the
array element, so the merge is modelled as an indexed update), merge via
evaluateProduct, persist, and return the updated cart; when the cart id is
absent the method throws its not-found error.  The getD default is never
read: jsFindIndex only returns in-bounds indices. -/
def addProductToCart (s : CartState) (cartId productId quantity : Int) :
    Except StoreError (CartState × Cart) :=
  match jsFindIndex (fun c => c.id == cartId) s.carts with
  | none => .error .notFoundError
  | some i =>
    let c := (s.carts.get? i).getD ⟨0, []⟩
    let c2 := evaluateProduct c productId quantity
    .ok (⟨s.carts.set i c2, s.nextId⟩, c2)

/-- Modelled from the spec: the file-backed carts route that invokes
CartManager.addProductToCart is not under src/ (only the database-backed
route is present); per the spec, quantity defaults to 1 when the caller
does not supply one. -/
def addProductToCartRoute (s : CartState) (cartId productId : Int)
    (quantity : Option Int) : Except StoreError (CartState × Cart) :=
  addProductToCart s cartId productId (quantity.getD 1)

/-- One mutating operation of the cart store. -/
inductive CartOp where
  | create : CartOp
  | add (cartId productId quantity : Int) : CartOp

/-- Apply one operation to the store state; a thrown not-found error leaves
the in-memory state unchanged. -/
def applyCartOp (s : CartState) : CartOp → CartState
  | .create => (createCart s).1
  | .add cid pid q =>
    match addProductToCart s cid pid q with
    | .ok (s2, _) => s2
    | .error _ => s

/-- Run a sequence of store operations from a fresh store. -/
def runCartOps (ops : List CartOp) : CartState :=
  ops.foldl applyCartOp cartInit

/-- The per-cart invariant: the product ids of the cart's line items are
pairwise distinct. -/
def cartProductsNodup (c : Cart) : Prop :=
  (c.products.map LineItem.product).Nodup

/-- The ProductManager state: the in-memory product list, the next-id counter
and the contents of the backing file (saveProducts rewrites the file with the
whole collection). -/
structure PState where
  products : List Obj
  nextId : Int
  file : List Obj
deriving DecidableEq

/-- The required fields checked by ProductManager.validateProductFields, in
source order. -/
def requiredFields : List String :=
  ["title", "description", "price", "category", "code", "stock"]

/-- The missing-field computation of ProductManager.validateProductFields:
the required fields whose value on the input is falsy (absent fields read as
undefined, which is falsy). -/
def missingFieldsOf (product : Obj) : List String :=
  requiredFields.filter (fun f => ! jvTruthy (jsGet product f))

/-- ProductManager.validateDuplicateCode: some existing product's code field
is strictly equal to the given code value. -/
def hasDuplicateCode (products : List Obj) (code : JValue) : Bool :=
  products.any (fun q => decide (jsGet q "code" = code))

/-- Modelled from the spec: models/Product.js is not under src/; per the
spec's product record shape its constructor assigns the given fields.  The
field order follows the constructor call in ProductManager.addProduct. -/
def mkProduct (id : Int) (p : Obj) : Obj :=
  [("id", .vNum id), ("title", jsGet p "title"),
   ("description", jsGet p "description"), ("code", jsGet p "code"),
   ("price", jsGet p "price"), ("status", jsGet p "status"),
   ("stock", jsGet p "stock"), ("category", jsGet p "category"),
   ("thumbnails", jsGet p "thumbnails")]

/-- ProductManager.addProduct: validate the required fields (throwing the
missing-field error first), then the duplicate code, then construct the new
product with id nextId, push it, increment nextId, persist.  The JS function
body has no return statement, so its result is undefined, modelled as the
none in the returned pair. -/
def addProduct (s : PState) (p : Obj) : Except StoreError (PState × Option Obj) :=
  if missingFieldsOf p ≠ [] then
    .error (.validationError (missingFieldsOf p))
  else if hasDuplicateCode s.products (jsGet p "code") then
    .error .duplicateKeyError
  else
    let np := mkProduct s.nextId p
    .ok (⟨s.products ++ [np], s.nextId + 1, s.products ++ [np]⟩, none)

/-- JS strict equality of a record's id field against a numeric id. -/
def idMatches (q : Obj) (id : Int) : Bool :=
  decide (jsGet q "id" = .vNum id)

/-- ProductManager.getProductById: linear find, throwing when absent. -/
def getProductById (s : PState) (id : Int) : Except StoreError Obj :=
  match s.products.find? (fun q => idMatches q id) with
  | some q => .ok q
  | none => .error .notFoundError

/-- ProductManager.updateProduct: find the record's index, spread the patch
over it, store the merged record back at the same index, persist, and return
the merged record.  The getD default is never read: jsFindIndex only returns
in-bounds indices. -/
def updateProduct (s : PState) (id : Int) (patch : Obj) :
    Except StoreError (PState × Option Obj) :=
  match jsFindIndex (fun q => idMatches q id) s.products with
  | none => .error .notFoundError
  | some i =>
    let orig := (s.products.get? i).getD []
    let merged := spreadMerge orig patch
    .ok (⟨s.products.set i merged, s.nextId, s.products.set i merged⟩, some merged)

/-- ProductManager.deleteProduct: find the record's index, splice it out,
persist; throw when absent. -/
def deleteProduct (s : PState) (id : Int) : Except StoreError PState :=
  match jsFindIndex (fun q => idMatches q id) s.products with
  | none => .error .notFoundError
  | some i => .ok ⟨s.products.eraseIdx i, s.nextId, s.products.eraseIdx i⟩

/-- The seed computed by the initialize methods of both managers: the id of
the LAST record of the loaded list plus one when the list is non-empty, else
the constructor's 1.  (On a record whose id is not a number the JS addition
would produce NaN; files written by this store always carry numeric ids, so
that branch is modelled by the constructor fallback 1.) -/
def nextIdFrom (ps : List Obj) : Int :=
  match ps.getLast? with
  | none => 1
  | some lastRec =>
    match jsGetOpt lastRec "id" with
    | some (.vNum n) => n + 1
    | _ => 1

/-- The initialize method of ProductManager (CartManager's is identical up to
field names): the argument is the parse result of the backing file, none when
reading or parsing fails, in which case the collection starts empty. -/
def initStore (loaded : Option (List Obj)) : PState :=
  match loaded with
  | none => ⟨[], 1, []⟩
  | some ps => ⟨ps, nextIdFrom ps, ps⟩

/-- A process restart: the manager object is reconstructed and initialize
re-reads the backing file. -/
def restartStore (s : PState) : PState :=
  initStore (some s.file)

/-- Whether a product-store call failed with the duplicate-code error. -/
def isDuplicateErr (r : Except StoreError (PState × Option Obj)) : Bool :=
  match r with
  | .error .duplicateKeyError => true
  | _ => false

/-- One mutating operation of the product store. -/
inductive POp where
  | create (input : Obj) : POp
  | update (id : Int) (patch : Obj) : POp
  | delete (id : Int) : POp

/-- Apply one product-store operation; a thrown error leaves the in-memory
state unchanged. -/
def applyPOp (s : PState) : POp → PState
  | .create input =>
    match addProduct s input with
    | .ok (s2, _) => s2
    | .error _ => s
  | .update id patch =>
    match updateProduct s id patch with
    | .ok (s2, _) => s2
    | .error _ => s
  | .delete id =>
    match deleteProduct s id with
    | .ok s2 => s2
    | .error _ => s

/-- Run a sequence of product-store operations within one process run that
started from a fresh store (empty collection, nextId 1: the constructor state
after a failed or empty load). -/
def runPOps (ops : List POp) : PState :=
  ops.foldl applyPOp (initStore none)

/-- An operation whose patch never writes an id field: updates whose patch
does not contain an id key (create assigns ids itself and delete writes
none). -/
def opIdFree : POp → Prop
  | .update _ patch => jsGetOpt patch "id" = none
  | _ => True

/-- The id-freshness invariant: every record in the collection carries a
numeric id strictly below the next-id counter. -/
def idsBelowNextId (s : PState) : Prop :=
  ∀ q ∈ s.products, ∃ m, jsGetOpt q "id" = some (JValue.vNum m) ∧ m < s.nextId

/-! ### Lemmas about the line-item merge -/

/-- When no line item matches the product id, the merge appends a fresh line
item at the end. -/
theorem addOrMerge_of_forall_ne (pid q : Int) :
    ∀ items : List LineItem, (∀ li ∈ items, li.product ≠ pid) →
      addOrMerge items pid q = items ++ [⟨pid, q⟩] := by
  intro items
  induction items with
  | nil => intro _; rfl
  | cons li rest ih =>
    intro h
    have hne : (li.product == pid) = false := by
      simpa using h li (List.mem_cons_self li rest)
    simp only [addOrMerge, hne, Bool.false_eq_true, if_false, List.cons_append,
      List.cons.injEq, true_and]
    exact ih (fun x hx => h x (List.mem_cons_of_mem li hx))

/-- Merging into a sequence that ends with the only line item for the product
adds the quantity to that line item. -/
theorem addOrMerge_append_same (pid q1 q2 : Int) :
    ∀ items : List LineItem, (∀ li ∈ items, li.product ≠ pid) →
      addOrMerge (items ++ [⟨pid, q1⟩]) pid q2 = items ++ [⟨pid, q1 + q2⟩] := by
  intro items
  induction items with
  | nil => simp [addOrMerge]
  | cons li rest ih =>
    intro h
    have hne : (li.product == pid) = false := by
      simpa using h li (List.mem_cons_self li rest)
    simp only [List.cons_append, addOrMerge, hne, Bool.false_eq_true, if_false,
      List.cons.injEq, true_and]
    exact ih (fun x hx => h x (List.mem_cons_of_mem li hx))

/-- The product ids after a merge: unchanged when the product was present,
extended by the product id when it was not. -/
theorem addOrMerge_map_product (pid q : Int) :
    ∀ items : List LineItem,
      (addOrMerge items pid q).map LineItem.product =
        if pid ∈ items.map LineItem.product then items.map LineItem.product
        else items.map LineItem.product ++ [pid] := by
  intro items
  induction items with
  | nil => simp [addOrMerge]
  | cons li rest ih =>
    by_cases hc : li.product = pid
    · simp [addOrMerge, hc]
    · have hne : (li.product == pid) = false := by simpa using hc
      have hne2 : ¬ (pid = li.product) := fun hpe => hc hpe.symm
      by_cases hm : pid ∈ rest.map LineItem.product
      · simp [addOrMerge, hne, ih, hm, hne2]
      · simp [addOrMerge, hne, ih, hm, hne2]

/-- The merge preserves distinctness of the product ids of a cart's line
items. -/
theorem addOrMerge_nodup (pid q : Int) (items : List LineItem)
    (h : (items.map LineItem.product).Nodup) :
    ((addOrMerge items pid q).map LineItem.product).Nodup := by
  rw [addOrMerge_map_product]
  by_cases hm : pid ∈ items.map LineItem.product
  · simpa [hm] using h
  · simp only [hm, if_false]
    simp [List.nodup_append, h, hm]

/-- A successful findIndex points at an element satisfying the predicate. -/
theorem jsFindIndex_get {α : Type} (p : α → Bool) :
    ∀ (l : List α) (i : Nat), jsFindIndex p l = some i →
      ∃ x, l.get? i = some x ∧ p x = true := by
  intro l
  induction l with
  | nil => intro i h; cases h
  | cons x rest ih =>
    intro i h
    by_cases hp : p x
    · simp [jsFindIndex, hp] at h
      exact ⟨x, by simp [← h], hp⟩
    · simp [jsFindIndex, hp] at h
      obtain ⟨j, hj, rfl⟩ := h
      obtain ⟨y, hy, hpy⟩ := ih j hj
      exact ⟨y, by simpa using hy, hpy⟩

/-! ### The cart-store state machine -/

/-- Each store operation preserves the per-cart distinct-product invariant. -/
theorem applyCartOp_inv (s : CartState) (op : CartOp)
    (h : ∀ c ∈ s.carts, cartProductsNodup c) :
    ∀ c ∈ (applyCartOp s op).carts, cartProductsNodup c := by
  cases op with
  | create =>
    intro c hc
    simp only [applyCartOp, createCart] at hc
    rcases List.mem_append.mp hc with hmem | hnew
    · exact h c hmem
    · have : c = ⟨s.nextId, []⟩ := by simpa using hnew
      simp [this, cartProductsNodup]
  | add cid pid q =>
    simp only [applyCartOp, addProductToCart]
    cases hfind : jsFindIndex (fun c => c.id == cid) s.carts with
    | none => exact h
    | some i =>
      intro c hc
      simp only at hc
      rcases List.mem_or_eq_of_mem_set hc with hmem | hnew
      · exact h c hmem
      · obtain ⟨x, hx, _⟩ := jsFindIndex_get _ s.carts i hfind
        have hcx : (s.carts.get? i).getD ⟨0, []⟩ = x := by rw [hx]; rfl
        have hxinv : cartProductsNodup x := h x (List.get?_mem hx)
        rw [hnew, hcx]
        exact addOrMerge_nodup pid q x.products hxinv

/-- The invariant holds after any operation sequence from any invariant
state. -/
theorem foldl_applyCartOp_inv :
    ∀ (ops : List CartOp) (s : CartState),
      (∀ c ∈ s.carts, cartProductsNodup c) →
      ∀ c ∈ (ops.foldl applyCartOp s).carts, cartProductsNodup c := by
  intro ops
  induction ops with
  | nil => intro s h; exact h
  | cons op rest ih =>
    intro s h
    exact ih (applyCartOp s op) (applyCartOp_inv s op h)

/-! ### Claims about the cart store -/

/-- C2: every cart reachable from a fresh store by any sequence of createCart
and addOrMergeProduct operations has pairwise distinct product ids in its
line-item sequence. -/
theorem cart_product_ids_unique (ops : List CartOp) :
    ∀ c ∈ (runCartOps ops).carts, cartProductsNodup c :=
  foldl_applyCartOp_inv ops cartInit (by simp [cartInit])

/-- Witness for C2 at a concrete operation sequence and cart. -/
theorem cart_product_ids_unique_witness :
    cartProductsNodup ⟨1, [⟨2, 3⟩]⟩ :=
  cart_product_ids_unique [CartOp.create, CartOp.add 1 2 3] ⟨1, [⟨2, 3⟩]⟩
    (by decide)

/-- C1 (amended): on a cart that does not yet hold a line item for pid,
adding (pid, q1) and then (pid, q2) leaves exactly one line item for pid,
carrying quantity q1 + q2, appended after the untouched other items. -/
theorem addOrMergeProduct_twice (c : Cart) (pid q1 q2 : Int)
    (h : ∀ li ∈ c.products, li.product ≠ pid) :
    (evaluateProduct (evaluateProduct c pid q1) pid q2).products
        = c.products ++ [⟨pid, q1 + q2⟩]
    ∧ ((evaluateProduct (evaluateProduct c pid q1) pid q2).products.filter
        (fun li => li.product == pid)) = [⟨pid, q1 + q2⟩] := by
  have hmain : (evaluateProduct (evaluateProduct c pid q1) pid q2).products
      = c.products ++ [⟨pid, q1 + q2⟩] := by
    show addOrMerge (addOrMerge c.products pid q1) pid q2 = _
    rw [addOrMerge_of_forall_ne pid q1 c.products h]
    exact addOrMerge_append_same pid q1 q2 c.products h
  refine ⟨hmain, ?_⟩
  rw [hmain, List.filter_append]
  have hnil : c.products.filter (fun li => li.product == pid) = [] := by
    rw [List.filter_eq_nil_iff]
    intro li hli
    simpa using h li hli
  simp [hnil]

/-- Witness for C1 (amended) at a concrete cart. -/
theorem addOrMergeProduct_twice_witness :
    (evaluateProduct (evaluateProduct ⟨1, [⟨2, 4⟩]⟩ 7 2) 7 3).products
        = [⟨2, 4⟩] ++ [⟨7, 2 + 3⟩]
    ∧ ((evaluateProduct (evaluateProduct ⟨1, [⟨2, 4⟩]⟩ 7 2) 7 3).products.filter
        (fun li => li.product == 7)) = [⟨7, 2 + 3⟩] :=
  addOrMergeProduct_twice ⟨1, [⟨2, 4⟩]⟩ 7 2 3 (by decide)

/-- Counterexample to C1 as stated: on a cart that already holds a line item
for pid (quantity 5), two merges with q1 = 2 and q2 = 3 leave quantity 10,
not q1 + q2 = 5. -/
theorem addOrMergeProduct_twice_cex :
    (evaluateProduct (evaluateProduct ⟨1, [⟨1, 5⟩]⟩ 1 2) 1 3).products
        = [⟨1, 10⟩]
    ∧ ¬ ((10 : Int) = 2 + 3) := by decide

/-- C3 evidence: on a store holding only cart 1, getCartById 2 returns none
(JS undefined) rather than failing, contradicting both the claim and the
method's own JSDoc; the NotFoundError for an absent cart is thrown only by
addProductToCart. -/
theorem getCartById_absent_none :
    getCartById ⟨[⟨1, []⟩], 2⟩ 2 = none
    ∧ addProductToCart ⟨[⟨1, []⟩], 2⟩ 2 5 1 = .error .notFoundError :=
  ⟨rfl, rfl⟩

/-- C4: a call without a quantity behaves exactly as a call with quantity 1:
the route-level default makes the two calls equal, a fresh product is
appended with quantity 1, and a matched line item is incremented by 1. -/
theorem addProductToCart_default_quantity (s : CartState) (cid pid : Int)
    (items : List LineItem) :
    addProductToCartRoute s cid pid none = addProductToCart s cid pid 1
    ∧ ((∀ li ∈ items, li.product ≠ pid) →
        addOrMerge items pid 1 = items ++ [⟨pid, 1⟩])
    ∧ (∀ q rest, addOrMerge (⟨pid, q⟩ :: rest) pid 1 = ⟨pid, q + 1⟩ :: rest) := by
  refine ⟨rfl, fun h => addOrMerge_of_forall_ne pid 1 items h, fun q rest => ?_⟩
  simp [addOrMerge]

/-- Witness for C4 at a concrete cart state. -/
theorem addProductToCart_default_quantity_witness :
    addOrMerge [⟨2, 5⟩] 7 1 = [⟨2, 5⟩] ++ [⟨7, 1⟩] :=
  (addProductToCart_default_quantity cartInit 1 7 [⟨2, 5⟩]).2.1 (by decide)

/-! ### Lemmas about object lookup and the spread merge -/

/-- Lookup distributes over append, preferring the left list. -/
theorem jsGetOpt_append (l2 : Obj) (k : String) :
    ∀ l1 : Obj, jsGetOpt (l1 ++ l2) k =
      match jsGetOpt l1 k with
      | some v => some v
      | none => jsGetOpt l2 k := by
  intro l1
  induction l1 with
  | nil => rfl
  | cons kv rest ih =>
    obtain ⟨k0, v0⟩ := kv
    by_cases hk : k0 = k
    · simp [jsGetOpt, hk]
    · simp [jsGetOpt, hk, ih]

/-- Lookup in the overwritten copy of the original object: present keys keep
their value unless the patch names them. -/
theorem jsGetOpt_map_updater (patch : Obj) (k : String) :
    ∀ orig : Obj,
      jsGetOpt (orig.map (fun kv =>
        match jsGetOpt patch kv.1 with
        | some v => (kv.1, v)
        | none => kv)) k
      = match jsGetOpt orig k with
        | none => none
        | some w => some ((jsGetOpt patch k).getD w) := by
  intro orig
  induction orig with
  | nil => rfl
  | cons kv rest ih =>
    obtain ⟨k0, v0⟩ := kv
    by_cases hk : k0 = k
    · subst hk
      cases hp : jsGetOpt patch k0 with
      | some v => simp [jsGetOpt, hp]
      | none => simp [jsGetOpt, hp]
    · cases hp : jsGetOpt patch k0 with
      | some v => simp [jsGetOpt, hp, hk, ih]
      | none => simp [jsGetOpt, hp, hk, ih]

/-- Keys absent from the original survive the filter over the patch with
their patch value lookup intact. -/
theorem jsGetOpt_filter_not_in_orig (orig : Obj) (k : String)
    (hk : jsGetOpt orig k = none) :
    ∀ patch : Obj,
      jsGetOpt (patch.filter (fun kv => (jsGetOpt orig kv.1).isNone)) k
        = jsGetOpt patch k := by
  intro patch
  induction patch with
  | nil => rfl
  | cons kv rest ih =>
    obtain ⟨k1, w⟩ := kv
    by_cases hk1 : k1 = k
    · subst hk1
      simp [List.filter_cons, hk, jsGetOpt]
    · cases hc : (jsGetOpt orig k1).isNone with
      | true => simp [List.filter_cons, hc, jsGetOpt, hk1, ih]
      | false => simp [List.filter_cons, hc, jsGetOpt, hk1, ih]

/-- C10 part one: a field named in the patch ends with the patch's value. -/
theorem jsGetOpt_spreadMerge_some (orig patch : Obj) (k : String) (v : JValue)
    (h : jsGetOpt patch k = some v) :
    jsGetOpt (spreadMerge orig patch) k = some v := by
  unfold spreadMerge
  rw [jsGetOpt_append, jsGetOpt_map_updater patch k orig]
  cases ho : jsGetOpt orig k with
  | some w => simp [h]
  | none =>
    simp only []
    exact (jsGetOpt_filter_not_in_orig orig k ho patch).trans h

/-- C10 part two: a field not named in the patch keeps its original value. -/
theorem jsGetOpt_spreadMerge_none (orig patch : Obj) (k : String)
    (h : jsGetOpt patch k = none) :
    jsGetOpt (spreadMerge orig patch) k = jsGetOpt orig k := by
  unfold spreadMerge
  rw [jsGetOpt_append, jsGetOpt_map_updater patch k orig]
  cases ho : jsGetOpt orig k with
  | some w => simp [h]
  | none =>
    simp only []
    exact (jsGetOpt_filter_not_in_orig orig k ho patch).trans h

/-- Setting one index leaves every other index unchanged. -/
theorem listGetSetNe {α : Type} (a : α) :
    ∀ (l : List α) (i j : Nat), i ≠ j → (l.set i a).get? j = l.get? j := by
  intro l
  induction l with
  | nil => intro i j _; simp
  | cons x rest ih =>
    intro i j hij
    cases i with
    | zero =>
      cases j with
      | zero => exact absurd rfl hij
      | succ j2 => simp
    | succ i2 =>
      cases j with
      | zero => simp
      | succ j2 =>
        simp only [List.set_cons_succ, List.get?_cons_succ]
        exact ih i2 j2 (fun he => hij (by rw [he]))

/-! ### Small list helpers -/

/-- Replacing an element by one with the same image leaves the mapped list
unchanged. -/
theorem listMapSetEq {α β : Type} (f : α → β) :
    ∀ (l : List α) (i : Nat) (a x : α),
      l.get? i = some x → f a = f x → (l.set i a).map f = l.map f := by
  intro l
  induction l with
  | nil => intro i a x h; cases h
  | cons y rest ih =>
    intro i a x h hfe
    cases i with
    | zero =>
      have hx : y = x := by simpa using h
      simp [List.set, hfe, hx]
    | succ i2 =>
      simp only [List.set_cons_succ, List.map_cons]
      rw [ih i2 a x (by simpa using h) hfe]

/-- Every element surviving an index deletion was in the original list. -/
theorem listMemEraseIdx {α : Type} :
    ∀ (l : List α) (i : Nat) (a : α), a ∈ l.eraseIdx i → a ∈ l := by
  intro l
  induction l with
  | nil => intro i a h; simp at h
  | cons y rest ih =>
    intro i a h
    cases i with
    | zero => exact List.mem_cons_of_mem y (by simpa using h)
    | succ i2 =>
      rcases List.mem_cons.mp (by simpa using h) with rfl | h2
      · exact List.mem_cons_self a rest
      · exact List.mem_cons_of_mem y (ih i2 a h2)

/-- The last element of a list is a member. -/
theorem listGetLastMem {α : Type} :
    ∀ (l : List α) (a : α), l.getLast? = some a → a ∈ l := by
  intro l
  induction l with
  | nil => intro a h; cases h
  | cons y rest ih =>
    intro a h
    cases rest with
    | nil =>
      have : a = y := by simpa using h.symm
      simp [this]
    | cons z t =>
      have h2 : (z :: t).getLast? = some a := by simpa using h
      exact List.mem_cons_of_mem y (ih a h2)

/-- In a list sorted by chained less-or-equal, the last element dominates
every element. -/
theorem chainLastGreatest :
    ∀ ns : List Int, List.Chain' (· ≤ ·) ns →
      ∀ n, ns.getLast? = some n → ∀ m ∈ ns, m ≤ n := by
  intro ns
  induction ns with
  | nil => intro _ n h; cases h
  | cons a rest ih =>
    intro hch n hlast m hm
    cases rest with
    | nil =>
      have hn : n = a := by simpa using hlast.symm
      have hma : m = a := by simpa using hm
      simp [hn, hma]
    | cons b t =>
      have hab : a ≤ b := (List.chain'_cons.mp hch).1
      have hch2 : List.Chain' (· ≤ ·) (b :: t) := (List.chain'_cons.mp hch).2
      have hlast2 : (b :: t).getLast? = some n := by
        simpa [List.getLast?_cons_cons] using hlast
      rcases List.mem_cons.mp hm with rfl | hm2
      · exact le_trans hab (ih hch2 n hlast2 b (List.mem_cons_self b t))
      · exact ih hch2 n hlast2 m hm2

/-! ### Claims about the product store -/

/-- C10: a successful update stores, at the found index, exactly the shallow
merge of the patch over the pre-update record: fields named in the patch take
the patch's value, fields not named keep the record's value, every other
index of the collection is untouched, and the merged record is returned. -/
theorem updateProduct_shallow_merge (s : PState) (rid : Int) (patch : Obj)
    (i : Nat) (orig : Obj)
    (hfind : jsFindIndex (fun q => idMatches q rid) s.products = some i)
    (horig : s.products.get? i = some orig) :
    updateProduct s rid patch =
      .ok (⟨s.products.set i (spreadMerge orig patch), s.nextId,
            s.products.set i (spreadMerge orig patch)⟩,
           some (spreadMerge orig patch))
    ∧ (∀ k v, jsGetOpt patch k = some v →
        jsGetOpt (spreadMerge orig patch) k = some v)
    ∧ (∀ k, jsGetOpt patch k = none →
        jsGetOpt (spreadMerge orig patch) k = jsGetOpt orig k)
    ∧ (∀ j, j ≠ i →
        (s.products.set i (spreadMerge orig patch)).get? j
          = s.products.get? j) := by
  refine ⟨?_, fun k v hv => jsGetOpt_spreadMerge_some orig patch k v hv,
          fun k hk => jsGetOpt_spreadMerge_none orig patch k hk,
          fun j hj => listGetSetNe _ s.products i j (fun he => hj he.symm)⟩
  have horig2 : s.products[i]? = some orig := by simpa using horig
  simp [updateProduct, hfind, horig2]

/-- Witness for C10 at a concrete record and patch. -/
theorem updateProduct_shallow_merge_witness :
    jsGetOpt (spreadMerge [("id", JValue.vNum 1), ("title", JValue.vStr "a"),
        ("price", JValue.vNum 10)]
      [("price", JValue.vNum 20), ("extra", JValue.vStr "x")]) "price"
      = some (JValue.vNum 20) :=
  (updateProduct_shallow_merge
      ⟨[[("id", JValue.vNum 1), ("title", JValue.vStr "a"),
         ("price", JValue.vNum 10)]], 2,
        [[("id", JValue.vNum 1), ("title", JValue.vStr "a"),
          ("price", JValue.vNum 10)]]⟩
      1 [("price", JValue.vNum 20), ("extra", JValue.vStr "x")] 0
      [("id", JValue.vNum 1), ("title", JValue.vStr "a"),
       ("price", JValue.vNum 10)]
      rfl rfl).2.1 "price" (JValue.vNum 20) rfl

/-- C7 (amended): a create whose input passes field validation and whose code
is not already taken assigns id nextId to the new record, appends it to the
collection, increments nextId by one, persists the extended collection, and
returns undefined (no value): the created record is observable only through
the collection. -/
theorem addProduct_success (s : PState) (p : Obj)
    (hval : missingFieldsOf p = [])
    (hdup : hasDuplicateCode s.products (jsGet p "code") = false) :
    addProduct s p =
      .ok (⟨s.products ++ [mkProduct s.nextId p], s.nextId + 1,
            s.products ++ [mkProduct s.nextId p]⟩, none) := by
  simp [addProduct, hval, hdup]

/-- Witness for C7 (amended) at a concrete valid input. -/
theorem addProduct_success_witness :
    addProduct ⟨[], 1, []⟩
        [("title", JValue.vStr "Widget"), ("description", JValue.vStr "d"),
         ("price", JValue.vNum 10), ("category", JValue.vStr "c"),
         ("code", JValue.vStr "A1"), ("stock", JValue.vNum 5)] =
      .ok (⟨[mkProduct 1
              [("title", JValue.vStr "Widget"), ("description", JValue.vStr "d"),
               ("price", JValue.vNum 10), ("category", JValue.vStr "c"),
               ("code", JValue.vStr "A1"), ("stock", JValue.vNum 5)]], 2,
            [mkProduct 1
              [("title", JValue.vStr "Widget"), ("description", JValue.vStr "d"),
               ("price", JValue.vNum 10), ("category", JValue.vStr "c"),
               ("code", JValue.vStr "A1"), ("stock", JValue.vNum 5)]]⟩, none) :=
  addProduct_success ⟨[], 1, []⟩
    [("title", JValue.vStr "Widget"), ("description", JValue.vStr "d"),
     ("price", JValue.vNum 10), ("category", JValue.vStr "c"),
     ("code", JValue.vStr "A1"), ("stock", JValue.vNum 5)] rfl rfl

/-- Counterexample to C7 as stated: a successful create does NOT return the
newly created record to the caller; the addProduct body has no return
statement, so the caller receives undefined (none), not the record. -/
theorem addProduct_no_return_cex :
    addProduct ⟨[], 1, []⟩
        [("title", JValue.vStr "Widget"), ("description", JValue.vStr "d"),
         ("price", JValue.vNum 10), ("category", JValue.vStr "c"),
         ("code", JValue.vStr "A1"), ("stock", JValue.vNum 5)] =
      .ok (⟨[mkProduct 1
              [("title", JValue.vStr "Widget"), ("description", JValue.vStr "d"),
               ("price", JValue.vNum 10), ("category", JValue.vStr "c"),
               ("code", JValue.vStr "A1"), ("stock", JValue.vNum 5)]], 2,
            [mkProduct 1
              [("title", JValue.vStr "Widget"), ("description", JValue.vStr "d"),
               ("price", JValue.vNum 10), ("category", JValue.vStr "c"),
               ("code", JValue.vStr "A1"), ("stock", JValue.vNum 5)]]⟩, none)
    ∧ (none : Option Obj) ≠ some (mkProduct 1
        [("title", JValue.vStr "Widget"), ("description", JValue.vStr "d"),
         ("price", JValue.vNum 10), ("category", JValue.vStr "c"),
         ("code", JValue.vStr "A1"), ("stock", JValue.vNum 5)]) := by
  refine ⟨?_, by simp⟩
  simp [addProduct, missingFieldsOf, requiredFields, jsGet, jsGetOpt, jvTruthy,
    hasDuplicateCode]

/-- C8: when at least one required field is absent or falsy, create fails
with the validation error carrying exactly the missing field names (in the
order of the required-field list), and the thrown message lists exactly those
names. -/
theorem addProduct_missing_fields (s : PState) (p : Obj)
    (h : missingFieldsOf p ≠ []) :
    addProduct s p = .error (.validationError (missingFieldsOf p))
    ∧ errorMessage (.validationError (missingFieldsOf p))
        = "Missing fields: " ++ String.intercalate ", " (missingFieldsOf p) := by
  refine ⟨?_, rfl⟩
  simp [addProduct, h]

/-- Witness for C8 at an input providing only a title. -/
theorem addProduct_missing_fields_witness :
    addProduct ⟨[], 1, []⟩ [("title", JValue.vStr "t")] =
      .error (.validationError (missingFieldsOf [("title", JValue.vStr "t")]))
    ∧ errorMessage (.validationError (missingFieldsOf [("title", JValue.vStr "t")]))
        = "Missing fields: "
          ++ String.intercalate ", " (missingFieldsOf [("title", JValue.vStr "t")]) :=
  addProduct_missing_fields ⟨[], 1, []⟩ [("title", JValue.vStr "t")] (by decide)

/-- C9 (amended): for inputs passing field validation, create fails with the
duplicate-key error exactly when some product in the collection has the same
code; and once a delete leaves no product carrying that code, a create with
the same code succeeds. -/
theorem addProduct_duplicate_code (s st2 : PState) (p : Obj) (rid : Int)
    (hval : missingFieldsOf p = []) :
    (isDuplicateErr (addProduct s p) = true
        ↔ ∃ q ∈ s.products, jsGet q "code" = jsGet p "code")
    ∧ (deleteProduct s rid = .ok st2 →
        (∀ q ∈ st2.products, jsGet q "code" ≠ jsGet p "code") →
        exceptIsOk (addProduct st2 p) = true) := by
  have hiff : ∀ t : PState, hasDuplicateCode t.products (jsGet p "code") = true
      ↔ ∃ q ∈ t.products, jsGet q "code" = jsGet p "code" := by
    intro t
    unfold hasDuplicateCode
    simp [List.any_eq_true]
  constructor
  · cases hdup : hasDuplicateCode s.products (jsGet p "code") with
    | true =>
      simpa [addProduct, hval, hdup, isDuplicateErr] using (hiff s).mp hdup
    | false =>
      have hne : ¬ ∃ q ∈ s.products, jsGet q "code" = jsGet p "code" :=
        fun hex => by rw [(hiff s).mpr hex] at hdup; cases hdup
      simpa [addProduct, hval, hdup, isDuplicateErr] using hne
  · intro hdel hno
    have hdup2 : hasDuplicateCode st2.products (jsGet p "code") = false := by
      cases hd : hasDuplicateCode st2.products (jsGet p "code") with
      | false => rfl
      | true =>
        obtain ⟨q, hq, hqc⟩ := (hiff st2).mp hd
        exact absurd hqc (hno q hq)
    simp [addProduct, hval, hdup2, exceptIsOk]

/-- Witness for C9 (amended): after deleting the sole holder of code A1, a
create with code A1 succeeds. -/
theorem addProduct_duplicate_code_witness :
    exceptIsOk (addProduct ⟨[], 2, []⟩
      [("title", JValue.vStr "Widget"), ("description", JValue.vStr "d"),
       ("price", JValue.vNum 10), ("category", JValue.vStr "c"),
       ("code", JValue.vStr "A1"), ("stock", JValue.vNum 5)]) = true :=
  (addProduct_duplicate_code
      ⟨[mkProduct 1
          [("title", JValue.vStr "Widget"), ("description", JValue.vStr "d"),
           ("price", JValue.vNum 10), ("category", JValue.vStr "c"),
           ("code", JValue.vStr "A1"), ("stock", JValue.vNum 5)]], 2,
        [mkProduct 1
          [("title", JValue.vStr "Widget"), ("description", JValue.vStr "d"),
           ("price", JValue.vNum 10), ("category", JValue.vStr "c"),
           ("code", JValue.vStr "A1"), ("stock", JValue.vNum 5)]]⟩
      ⟨[], 2, []⟩
      [("title", JValue.vStr "Widget"), ("description", JValue.vStr "d"),
       ("price", JValue.vNum 10), ("category", JValue.vStr "c"),
       ("code", JValue.vStr "A1"), ("stock", JValue.vNum 5)]
      1 rfl).2 rfl (by simp)

/-- Counterexample to C9 as stated: when the input both misses required
fields and duplicates an existing code, create fails with the validation
error, not the duplicate-key error, although the code matches an existing
product. -/
theorem addProduct_duplicate_code_cex :
    hasDuplicateCode
        [mkProduct 1
          [("title", JValue.vStr "Widget"), ("description", JValue.vStr "d"),
           ("price", JValue.vNum 10), ("category", JValue.vStr "c"),
           ("code", JValue.vStr "A1"), ("stock", JValue.vNum 5)]]
        (jsGet [("code", JValue.vStr "A1")] "code") = true
    ∧ addProduct
        ⟨[mkProduct 1
            [("title", JValue.vStr "Widget"), ("description", JValue.vStr "d"),
             ("price", JValue.vNum 10), ("category", JValue.vStr "c"),
             ("code", JValue.vStr "A1"), ("stock", JValue.vNum 5)]], 2,
          [mkProduct 1
            [("title", JValue.vStr "Widget"), ("description", JValue.vStr "d"),
             ("price", JValue.vNum 10), ("category", JValue.vStr "c"),
             ("code", JValue.vStr "A1"), ("stock", JValue.vNum 5)]]⟩
        [("code", JValue.vStr "A1")]
      = .error (.validationError
          ["title", "description", "price", "category", "stock"])
    ∧ isDuplicateErr (addProduct
        ⟨[mkProduct 1
            [("title", JValue.vStr "Widget"), ("description", JValue.vStr "d"),
             ("price", JValue.vNum 10), ("category", JValue.vStr "c"),
             ("code", JValue.vStr "A1"), ("stock", JValue.vNum 5)]], 2,
          [mkProduct 1
            [("title", JValue.vStr "Widget"), ("description", JValue.vStr "d"),
             ("price", JValue.vNum 10), ("category", JValue.vStr "c"),
             ("code", JValue.vStr "A1"), ("stock", JValue.vNum 5)]]⟩
        [("code", JValue.vStr "A1")]) = false := by
  refine ⟨rfl, ?_, ?_⟩ <;> rfl

/-- The next-id counter never decreases under any single operation. -/
theorem applyPOp_nextId_mono (s : PState) (op : POp) :
    s.nextId ≤ (applyPOp s op).nextId := by
  cases op with
  | create input =>
    by_cases hval : missingFieldsOf input = []
    · cases hdup : hasDuplicateCode s.products (jsGet input "code") with
      | true => simp [applyPOp, addProduct, hval, hdup]
      | false =>
        simp only [applyPOp, addProduct, hval, hdup, ne_eq, not_true_eq_false,
          Bool.false_eq_true, if_false, ite_false]
        omega
    · simp [applyPOp, addProduct, hval]
  | update id patch =>
    cases hfind : jsFindIndex (fun q => idMatches q id) s.products with
    | none => simp [applyPOp, updateProduct, hfind]
    | some i => simp [applyPOp, updateProduct, hfind]
  | delete id =>
    cases hfind : jsFindIndex (fun q => idMatches q id) s.products with
    | none => simp [applyPOp, deleteProduct, hfind]
    | some i => simp [applyPOp, deleteProduct, hfind]

/-- The next-id counter never decreases across an operation sequence. -/
theorem foldl_applyPOp_nextId_mono :
    ∀ (ops : List POp) (s : PState),
      s.nextId ≤ (ops.foldl applyPOp s).nextId := by
  intro ops
  induction ops with
  | nil => intro s; exact le_refl _
  | cons op rest ih =>
    intro s
    exact le_trans (applyPOp_nextId_mono s op) (ih (applyPOp s op))

/-- Each operation whose patch does not write an id preserves the
id-freshness invariant. -/
theorem applyPOp_idsBelow (s : PState) (op : POp) (hop : opIdFree op)
    (h : idsBelowNextId s) : idsBelowNextId (applyPOp s op) := by
  cases op with
  | create input =>
    by_cases hval : missingFieldsOf input = []
    · cases hdup : hasDuplicateCode s.products (jsGet input "code") with
      | true => simpa [applyPOp, addProduct, hval, hdup] using h
      | false =>
        have hstate : applyPOp s (.create input)
            = ⟨s.products ++ [mkProduct s.nextId input], s.nextId + 1,
               s.products ++ [mkProduct s.nextId input]⟩ := by
          simp [applyPOp, addProduct, hval, hdup]
        rw [hstate]
        intro q hq
        rcases List.mem_append.mp hq with hm | hnew
        · obtain ⟨m, hid, hlt⟩ := h q hm
          refine ⟨m, hid, ?_⟩
          show m < s.nextId + 1
          omega
        · have hqe : q = mkProduct s.nextId input := by simpa using hnew
          subst hqe
          refine ⟨s.nextId, rfl, ?_⟩
          show s.nextId < s.nextId + 1
          omega
    · simpa [applyPOp, addProduct, hval] using h
  | update id patch =>
    cases hfind : jsFindIndex (fun q => idMatches q id) s.products with
    | none => simpa [applyPOp, updateProduct, hfind] using h
    | some i =>
      obtain ⟨x, hx, -⟩ := jsFindIndex_get _ s.products i hfind
      have hx2 : s.products[i]? = some x := by simpa using hx
      have hstate : applyPOp s (.update id patch)
          = ⟨s.products.set i (spreadMerge x patch), s.nextId,
             s.products.set i (spreadMerge x patch)⟩ := by
        simp [applyPOp, updateProduct, hfind, hx2]
      rw [hstate]
      intro q hq
      rcases List.mem_or_eq_of_mem_set hq with hm | hqe
      · exact h q hm
      · subst hqe
        obtain ⟨m, hid, hlt⟩ := h x (List.get?_mem hx)
        refine ⟨m, ?_, hlt⟩
        rw [jsGetOpt_spreadMerge_none x patch "id" hop]
        exact hid
  | delete id =>
    cases hfind : jsFindIndex (fun q => idMatches q id) s.products with
    | none => simpa [applyPOp, deleteProduct, hfind] using h
    | some i =>
      have hstate : applyPOp s (.delete id)
          = ⟨s.products.eraseIdx i, s.nextId, s.products.eraseIdx i⟩ := by
        simp [applyPOp, deleteProduct, hfind]
      rw [hstate]
      intro q hq
      exact h q (listMemEraseIdx s.products i q hq)

/-- The id-freshness invariant holds after any sequence of id-free
operations from any invariant state. -/
theorem foldl_applyPOp_idsBelow :
    ∀ (ops : List POp) (s : PState), (∀ op ∈ ops, opIdFree op) →
      idsBelowNextId s → idsBelowNextId (ops.foldl applyPOp s) := by
  intro ops
  induction ops with
  | nil => intro s _ h; exact h
  | cons op rest ih =>
    intro s hops h
    exact ih (applyPOp s op)
      (fun o ho => hops o (List.mem_cons_of_mem op ho))
      (applyPOp_idsBelow s op (hops op (List.mem_cons_self op rest)) h)

/-- C5 (amended): update with a patch that does not itself contain an id
field preserves the id of every record; delete introduces no new id; create
appends exactly the id nextId after the unchanged existing ids; and within a
single run started from a fresh store whose updates never patch id, every id
ever present stays strictly below the counter at all later points — so,
since create assigns exactly the current counter, no id (deleted or not) is
ever assigned twice in such a run.  (When the run instead starts from a
loaded file whose last id is not the maximum, or across a persist-and-reload
restart, the re-seeded counter can fall at or below a deleted id and that id
is reassigned; see the counterexample.) -/
theorem product_ids_stable (s : PState) (rid : Int) (patch input : Obj) :
    (jsGetOpt patch "id" = none →
      ∀ st2 r, updateProduct s rid patch = .ok (st2, r) →
        st2.products.map (fun q => jsGet q "id")
          = s.products.map (fun q => jsGet q "id"))
    ∧ (∀ st2, deleteProduct s rid = .ok st2 →
        ∀ v ∈ st2.products.map (fun q => jsGet q "id"),
          v ∈ s.products.map (fun q => jsGet q "id"))
    ∧ (∀ st2 r, addProduct s input = .ok (st2, r) →
        st2.products.map (fun q => jsGet q "id")
          = s.products.map (fun q => jsGet q "id") ++ [JValue.vNum s.nextId])
    ∧ (∀ ops1 ops2 : List POp, (∀ op ∈ ops1, opIdFree op) →
        ∀ q ∈ (runPOps ops1).products, ∀ m,
          jsGetOpt q "id" = some (JValue.vNum m) →
          m < (runPOps (ops1 ++ ops2)).nextId) := by
  refine ⟨?_, ?_, ?_, ?_⟩
  · intro hid st2 r hup
    cases hfind : jsFindIndex (fun q => idMatches q rid) s.products with
    | none => simp [updateProduct, hfind] at hup
    | some i =>
      obtain ⟨x, hx, -⟩ := jsFindIndex_get _ s.products i hfind
      simp only [updateProduct, hfind, hx, Option.getD_some] at hup
      have hst : st2 = ⟨s.products.set i (spreadMerge x patch), s.nextId,
          s.products.set i (spreadMerge x patch)⟩ := by
        cases hup with
        | refl => rfl
      subst hst
      have hfe : jsGet (spreadMerge x patch) "id" = jsGet x "id" := by
        unfold jsGet
        rw [jsGetOpt_spreadMerge_none x patch "id" hid]
      exact listMapSetEq _ s.products i _ x hx hfe
  · intro st2 hdel v hv
    cases hfind : jsFindIndex (fun q => idMatches q rid) s.products with
    | none => simp [deleteProduct, hfind] at hdel
    | some i =>
      simp only [deleteProduct, hfind] at hdel
      have hst : st2 = ⟨s.products.eraseIdx i, s.nextId,
          s.products.eraseIdx i⟩ := by
        cases hdel with
        | refl => rfl
      subst hst
      obtain ⟨q, hq, rfl⟩ := List.mem_map.mp hv
      exact List.mem_map.mpr ⟨q, listMemEraseIdx s.products i q hq, rfl⟩
  · intro st2 r hadd
    by_cases hval : missingFieldsOf input = []
    · cases hdup : hasDuplicateCode s.products (jsGet input "code") with
      | true => simp [addProduct, hval, hdup] at hadd
      | false =>
        simp only [addProduct, hval, hdup, ne_eq, not_true_eq_false,
          Bool.false_eq_true, if_false, ite_false] at hadd
        have hst : st2 = ⟨s.products ++ [mkProduct s.nextId input],
            s.nextId + 1, s.products ++ [mkProduct s.nextId input]⟩ := by
          cases hadd with
          | refl => rfl
        subst hst
        simp [List.map_append, jsGet, mkProduct, jsGetOpt]
    · simp [addProduct, hval] at hadd
  · intro ops1 ops2 hfree q hq m hid
    have hinv : idsBelowNextId (runPOps ops1) :=
      foldl_applyPOp_idsBelow ops1 (initStore none) hfree
        (fun q2 hq2 => absurd hq2 (List.not_mem_nil q2))
    obtain ⟨m2, hid2, hlt⟩ := hinv q hq
    have hm : m2 = m := by
      have := hid2.symm.trans hid
      simpa using this
    subst hm
    have hmono : (runPOps ops1).nextId ≤ (runPOps (ops1 ++ ops2)).nextId := by
      unfold runPOps
      rw [List.foldl_append]
      exact foldl_applyPOp_nextId_mono ops2 _
    exact lt_of_lt_of_le hlt hmono

/-- Witness for C5 (amended): on a fresh store, a successful create appends
exactly id 1; and in the run that creates that record and then deletes it,
id 1 stays strictly below the counter afterwards, so it cannot be assigned
again. -/
theorem product_ids_stable_witness :
    (([mkProduct 1
        [("title", JValue.vStr "Widget"), ("description", JValue.vStr "d"),
         ("price", JValue.vNum 10), ("category", JValue.vStr "c"),
         ("code", JValue.vStr "A1"), ("stock", JValue.vNum 5)]].map
      (fun q => jsGet q "id"))
      = ([] : List Obj).map (fun q => jsGet q "id") ++ [JValue.vNum 1])
    ∧ (1 : Int) < (runPOps ([POp.create
        [("title", JValue.vStr "Widget"), ("description", JValue.vStr "d"),
         ("price", JValue.vNum 10), ("category", JValue.vStr "c"),
         ("code", JValue.vStr "A1"), ("stock", JValue.vNum 5)]]
      ++ [POp.delete 1])).nextId :=
  ⟨(product_ids_stable ⟨[], 1, []⟩ 0 []
      [("title", JValue.vStr "Widget"), ("description", JValue.vStr "d"),
       ("price", JValue.vNum 10), ("category", JValue.vStr "c"),
       ("code", JValue.vStr "A1"), ("stock", JValue.vNum 5)]).2.2.1
    ⟨[mkProduct 1
        [("title", JValue.vStr "Widget"), ("description", JValue.vStr "d"),
         ("price", JValue.vNum 10), ("category", JValue.vStr "c"),
         ("code", JValue.vStr "A1"), ("stock", JValue.vNum 5)]], 2,
      [mkProduct 1
        [("title", JValue.vStr "Widget"), ("description", JValue.vStr "d"),
         ("price", JValue.vNum 10), ("category", JValue.vStr "c"),
         ("code", JValue.vStr "A1"), ("stock", JValue.vNum 5)]]⟩
    none rfl,
   (product_ids_stable ⟨[], 1, []⟩ 0 []
      [("title", JValue.vStr "Widget"), ("description", JValue.vStr "d"),
       ("price", JValue.vNum 10), ("category", JValue.vStr "c"),
       ("code", JValue.vStr "A1"), ("stock", JValue.vNum 5)]).2.2.2
    [POp.create
        [("title", JValue.vStr "Widget"), ("description", JValue.vStr "d"),
         ("price", JValue.vNum 10), ("category", JValue.vStr "c"),
         ("code", JValue.vStr "A1"), ("stock", JValue.vNum 5)]]
    [POp.delete 1]
    (by intro op hop; simp at hop; subst hop; trivial)
    (mkProduct 1
      [("title", JValue.vStr "Widget"), ("description", JValue.vStr "d"),
       ("price", JValue.vNum 10), ("category", JValue.vStr "c"),
       ("code", JValue.vStr "A1"), ("stock", JValue.vNum 5)])
    (by decide) 1 rfl⟩

/-- Counterexample to C5 as stated: update(1, patch) with a patch containing
an id field rewrites the record's id from 1 to 99; after deleting the record
with id 2 and restarting (reload from the persisted file), the counter is
re-seeded to 2, so the next create reassigns the deleted id 2; and even
within one run, after loading a file whose records carry ids 5 then 2 (so
the counter is seeded to 3), deleting the record with id 5 and creating
three products reassigns the deleted id 5. -/
theorem product_id_mutable_cex :
    updateProduct ⟨[[("id", JValue.vNum 1), ("title", JValue.vStr "t")]], 2,
        [[("id", JValue.vNum 1), ("title", JValue.vStr "t")]]⟩ 1
        [("id", JValue.vNum 99)]
      = .ok (⟨[[("id", JValue.vNum 99), ("title", JValue.vStr "t")]], 2,
              [[("id", JValue.vNum 99), ("title", JValue.vStr "t")]]⟩,
             some [("id", JValue.vNum 99), ("title", JValue.vStr "t")])
    ∧ JValue.vNum 99 ≠ JValue.vNum 1
    ∧ deleteProduct ⟨[[("id", JValue.vNum 1)], [("id", JValue.vNum 2)]], 3,
        [[("id", JValue.vNum 1)], [("id", JValue.vNum 2)]]⟩ 2
      = .ok ⟨[[("id", JValue.vNum 1)]], 3, [[("id", JValue.vNum 1)]]⟩
    ∧ (restartStore ⟨[[("id", JValue.vNum 1)]], 3,
        [[("id", JValue.vNum 1)]]⟩).nextId = 2
    ∧ (addProduct (restartStore ⟨[[("id", JValue.vNum 1)]], 3,
          [[("id", JValue.vNum 1)]]⟩)
        [("title", JValue.vStr "Widget"), ("description", JValue.vStr "d"),
         ("price", JValue.vNum 10), ("category", JValue.vStr "c"),
         ("code", JValue.vStr "B2"), ("stock", JValue.vNum 5)]).map
        (fun r => r.1.products.map (fun q => jsGet q "id"))
      = .ok [JValue.vNum 1, JValue.vNum 2]
    ∧ ([POp.delete 5,
        POp.create [("title", JValue.vStr "t"), ("description", JValue.vStr "d"),
          ("price", JValue.vNum 1), ("category", JValue.vStr "c"),
          ("code", JValue.vStr "C1"), ("stock", JValue.vNum 1)],
        POp.create [("title", JValue.vStr "t"), ("description", JValue.vStr "d"),
          ("price", JValue.vNum 1), ("category", JValue.vStr "c"),
          ("code", JValue.vStr "C2"), ("stock", JValue.vNum 1)],
        POp.create [("title", JValue.vStr "t"), ("description", JValue.vStr "d"),
          ("price", JValue.vNum 1), ("category", JValue.vStr "c"),
          ("code", JValue.vStr "C3"), ("stock", JValue.vNum 1)]].foldl applyPOp
        (initStore (some [[("id", JValue.vNum 5)], [("id", JValue.vNum 2)]]))
        ).products.map (fun q => jsGet q "id")
      = [JValue.vNum 2, JValue.vNum 3, JValue.vNum 4, JValue.vNum 5] := by
  refine ⟨rfl, by decide, rfl, rfl, rfl, rfl⟩

/-- Counterexample to C6 as stated: loading the file whose records carry ids
5 then 2 seeds the counter to 3 (last id plus one), not max(ids) + 1 = 6. -/
theorem nextId_seed_cex :
    (initStore (some [[("id", JValue.vNum 5)], [("id", JValue.vNum 2)]])).nextId = 3
    ∧ ¬ ((3 : Int) = 5 + 1) :=
  ⟨rfl, by decide⟩

/-- C6 (amended): the counter is 1 when loading fails or the collection is
empty, and otherwise is seeded from the id of the LAST loaded record plus
one, which coincides with max(existing ids) + 1 whenever the file is sorted
ascending by id, as files written by this store are. -/
theorem nextId_seed_amended (ps : List Obj) (ns : List Int) (n : Int)
    (hids : ps.map (fun q => jsGetOpt q "id")
      = ns.map (fun m => some (JValue.vNum m)))
    (hlast : ns.getLast? = some n) :
    (initStore none).nextId = 1
    ∧ (initStore (some [])).nextId = 1
    ∧ (initStore (some ps)).nextId = n + 1
    ∧ (List.Chain' (· ≤ ·) ns → n ∈ ns ∧ ∀ m ∈ ns, m ≤ n) := by
  refine ⟨rfl, rfl, ?_,
    fun hch => ⟨listGetLastMem ns n hlast, chainLastGreatest ns hch n hlast⟩⟩
  have h1 : (ps.map (fun q => jsGetOpt q "id")).getLast?
      = (ns.map (fun m => some (JValue.vNum m))).getLast? := by rw [hids]
  rw [List.getLast?_map, List.getLast?_map, hlast] at h1
  obtain ⟨lastRec, hpl, hid⟩ := Option.map_eq_some'.mp h1
  have hid2 : jsGetOpt lastRec "id" = some (JValue.vNum n) := hid
  show nextIdFrom ps = n + 1
  unfold nextIdFrom
  rw [hpl]
  simp [hid2]

/-- Witness for C6 (amended) on a concrete sorted two-record file. -/
theorem nextId_seed_amended_witness :
    (initStore (some [[("id", JValue.vNum 1)], [("id", JValue.vNum 2)]])).nextId
      = 2 + 1 :=
  (nextId_seed_amended [[("id", JValue.vNum 1)], [("id", JValue.vNum 2)]]
    [1, 2] 2 rfl rfl).2.2.1
